import Mathlib

/-!
Shallow embedding of the judging engine of the crab-code server
(`apps/server/src/services/judge.rs` together with the submission model in
`apps/server/src/models/submission.rs` and the submission repository in
`apps/server/src/repositories/submission.rs`).

Strings are modelled as lists of characters.  The external process layer
(compiler invocations and the spawned child process) is nondeterministic from
the engine's point of view; it is modelled by per-attempt behaviour oracles
fed into the pure transliteration of the control flow.
-/

namespace CrabCode

/-- Strings of the source are modelled as lists of characters. -/
abbrev Str := List Char

/-- Rust's `char::is_whitespace`: the Unicode `White_Space` property,
transliterated as the explicit list of `White_Space` code points. -/
def isRustWhitespace (c : Char) : Bool :=
  let n := c.toNat
  n == 0x20 || n == 0x9 || n == 0xA || n == 0xB || n == 0xC || n == 0xD ||
  n == 0x85 || n == 0xA0 || n == 0x1680 ||
  (0x2000 ≤ n && n ≤ 0x200A) ||
  n == 0x2028 || n == 0x2029 || n == 0x202F || n == 0x205F || n == 0x3000

/-- Rust `str::trim_start`: drop leading whitespace. -/
def trimStart (s : Str) : Str := s.dropWhile isRustWhitespace

/-- Rust `str::trim_end`: drop trailing whitespace. -/
def trimEnd (s : Str) : Str := (s.reverse.dropWhile isRustWhitespace).reverse

/-- Rust `str::trim`: drop leading and trailing whitespace. -/
def trim (s : Str) : Str := trimEnd (trimStart s)

/-- Rust `str::replace('\r', "")`: remove every carriage-return character. -/
def removeCR (s : Str) : Str := s.filter (fun c => !(c == '\r'))

/-- The normalization each side of the comparison undergoes in
`compare_output` (judge.rs, lines 166-171): trim, then remove CRs. -/
def normalizeOutput (s : Str) : Str := removeCR (trim s)

/-- Model of `JudgeService::compare_output` (judge.rs, lines 166-171):
normalize both strings and compare for equality. -/
def compare_output (expected actual : Str) : Bool :=
  normalizeOutput expected == normalizeOutput actual

/-- Rust `str::starts_with(needle)` on lists: `needle` is a prefix of the
second argument. -/
def beginsWith : Str → Str → Bool
  | [], _ => true
  | _ :: _, [] => false
  | c :: cs, h :: hs => c == h && beginsWith cs hs

/-- Rust `str::contains(needle)`: `needle` occurs as a contiguous substring
of `hay`. -/
def containsStr : Str → Str → Bool
  | [], needle => beginsWith needle []
  | c :: hs, needle => beginsWith needle (c :: hs) || containsStr hs needle

/-- The verdict enum `SubmissionStatus` (models/submission.rs, lines 6-13):
exactly these four values; there is no pending/queued state. -/
inductive SubmissionStatus
  | accepted
  | wrongAnswer
  | timeLimitExceeded
  | runtimeError
deriving DecidableEq

/-- The status literal of the `INSERT INTO submissions ... VALUES (..,
'wrong_answer')` in `SubmissionRepository::create` (repositories/submission.rs,
lines 49-66); sqlx `rename_all = "snake_case"` maps `'wrong_answer'` to
`SubmissionStatus::WrongAnswer`. -/
def submissionCreationStatus : SubmissionStatus := .wrongAnswer

/-- The language descriptor `LanguageConfig` (models/judge.rs). -/
structure LanguageConfig where
  name : Str
  display_name : Str
  file_extension : Str
  compile_command : Option Str
  execute_command : Str
  time_limit : Int
  memory_limit : Int
deriving DecidableEq

/-- The fields of `TestCase` (models/test_case.rs) read by the engine. -/
structure TestCase where
  input_data : Str
  expected_output : Str
deriving DecidableEq

/-- The log-row request `CreateExecutionLogRequest` (models/judge.rs), without
the opaque submission id. -/
structure CreateExecutionLogRequest where
  language : Str
  execution_time : Option Int
  memory_used : Option Int
  exit_code : Option Int
  stdout : Option Str
  stderr : Option Str
  status : SubmissionStatus
  error_message : Option Str
deriving DecidableEq

/-- The arguments of `SubmissionRepository::update_status` after the id. -/
structure StatusUpdate where
  status : SubmissionStatus
  execution_time : Option Int
  memory_used : Option Int
  error_message : Option Str
deriving DecidableEq

/-- Oracle for one invocation of the compile command (or the source-file
write): it succeeds, the compiler exits non-zero with the given stderr, or a
process/filesystem `SystemError` occurs. -/
inductive CompileOutcome
  | ok
  | fail (stderr : Str)
  | sysError (msg : Str)
deriving DecidableEq

/-- Oracle for one spawned child process: the deadline expires first, the
process completes with the given streams/elapsed time/exit code, or
spawning/IO fails with a `SystemError`. -/
inductive ProcOutcome
  | timeout
  | completed (stdout stderr : Str) (elapsed : Int) (exit_code : Int)
  | spawnError (msg : Str)
deriving DecidableEq

/-- The external process-layer behaviour of one execution attempt. -/
structure AttemptBehavior where
  compile : CompileOutcome
  run : ProcOutcome
deriving DecidableEq

/-- The stderr of the synthetic timeout result, also the marker the
aggregator searches for (judge.rs, lines 146-155 and 310). -/
def tleMarker : Str := "Time limit exceeded".toList

/-- Result tuple of `execute_with_timeout` (judge.rs, line 95):
`(stdout, stderr, execution_time, memory_used, exit_code)`. -/
structure RunRes where
  stdout : Str
  stderr : Str
  execution_time : Int
  memory_used : Int
  exit_code : Int
deriving DecidableEq

/-- Model of `JudgeService::compile_code` (judge.rs, lines 50-86): when the descriptor
has a compile command it is executed and a non-zero exit returns
`Ok (some stderr)`; otherwise only the source file is written.  Filesystem or
spawn failures surface as `SystemError` (`.error`). -/
def compile_code (cfg : LanguageConfig) (co : CompileOutcome) :
    Except Str (Option Str) :=
  match cfg.compile_command with
  | some _ =>
    match co with
    | .ok => .ok none
    | .fail stderr => .ok (some stderr)
    | .sysError e => .error e
  | none =>
    match co with
    | .sysError e => .error e
    | _ => .ok none

/-- Model of `JudgeService::execute_with_timeout` (judge.rs, lines 88-164): create a
fresh workspace, compile, then run under the wall-clock deadline.  A compile
failure yields stdout empty, stderr the compile error, time 0 and exit 1;
deadline expiry yields the synthetic timeout result; normal
completion yields the measured streams with the placeholder memory 1024. -/
def execute_with_timeout (cfg : LanguageConfig) (b : AttemptBehavior)
    (time_limit : Int) : Except Str RunRes :=
  match compile_code cfg b.compile with
  | .error e => .error e
  | .ok (some compileError) => .ok ⟨[], compileError, 0, 0, 1⟩
  | .ok none =>
    match b.run with
    | .timeout => .ok ⟨[], tleMarker, time_limit, 0, 124⟩
    | .spawnError e => .error e
    | .completed out err elapsed code => .ok ⟨out, err, elapsed, 1024, code⟩

/-- The unsupported-language message followed by the language id
(judge.rs, line 190). -/
def msgUnsupported (lang : Str) : Str := "Unsupported language: ".toList ++ lang

/-- The no-test-cases message (judge.rs, line 233). -/
def msgNoTestCases : Str := "No test cases found for this problem".toList

/-- The wrong-answer message (judge.rs, line 340). -/
def msgWrongAnswer : Str := "Wrong answer".toList

/-- The execution-error message followed by the error display
(judge.rs, line 297). -/
def msgExecError (e : Str) : Str := "Execution error: ".toList ++ e

/-- The runtime-error message naming the exit code (judge.rs, line 316). -/
def msgRuntimeExit (code : Int) : Str :=
  "Runtime error (exit code: ".toList ++ (toString code).toList ++ ")".toList

/-- The per-test-case failure message naming the 1-based test case index
(judge.rs, line 369). -/
def msgTestFailed (i : Nat) : Str :=
  "Test case ".toList ++ (toString (i + 1)).toList ++ " failed".toList

/-- One when this attempt actually executed the compile command to completion
(a command exists and the process ran), else zero. -/
def compileRan (cfg : LanguageConfig) (co : CompileOutcome) : Nat :=
  match cfg.compile_command, co with
  | some _, .ok => 1
  | some _, .fail _ => 1
  | _, _ => 0

/-- The mutable state of the test-case loop of `execute_submission_internal`
(judge.rs, lines 273-278), instrumented with an event trail: the log rows
created so far, the number of execution attempts, of attempts that completed
with exit code zero, of compile-command executions and of fresh workspaces,
the measured time/memory of every completed attempt, and the history of
`error_message` assignments. -/
structure Agg where
  passed_tests : Nat
  max_execution_time : Int
  max_memory_used : Int
  overall_status : SubmissionStatus
  error_message : Option Str
  logs : List CreateExecutionLogRequest
  runAttempts : Nat
  zeroExitAttempts : Nat
  compileRuns : Nat
  freshWorkspaces : Nat
  times : List Int
  mems : List Int
  errHist : List Str

/-- The loop state at entry (judge.rs, lines 273-278). -/
def initAgg : Agg :=
  { passed_tests := 0, max_execution_time := 0, max_memory_used := 0
    overall_status := .accepted, error_message := none, logs := []
    runAttempts := 0, zeroExitAttempts := 0, compileRuns := 0
    freshWorkspaces := 0, times := [], mems := [], errHist := [] }

/-- The per-test-case loop of `execute_submission_internal` (judge.rs, lines
280-376), transliterated: one iteration runs `execute_with_timeout`, folds the
result into the aggregator state and decides whether to continue.  A
process-layer error or a non-zero exit code breaks out of the loop before any
log row is written; only the exit-code-zero path writes a log row. -/
def runLoop (cfg : LanguageConfig) (language_id : Str)
    (beh : Nat → AttemptBehavior) :
    List TestCase → Nat → Agg → Agg
  | [], _, st => st
  | tc :: rest, i, st =>
    let st1 : Agg := { st with
      runAttempts := st.runAttempts + 1
      freshWorkspaces := st.freshWorkspaces + 1
      compileRuns := st.compileRuns + compileRan cfg (beh i).compile }
    match execute_with_timeout cfg (beh i) cfg.time_limit with
    | .error e =>
        { st1 with overall_status := .runtimeError
                   error_message := some (msgExecError e)
                   errHist := st1.errHist ++ [msgExecError e] }
    | .ok r =>
      let st2 : Agg := { st1 with
        max_execution_time := max st1.max_execution_time r.execution_time
        max_memory_used := max st1.max_memory_used r.memory_used
        times := st1.times ++ [r.execution_time]
        mems := st1.mems ++ [r.memory_used] }
      if r.exit_code ≠ 0 then
        if containsStr r.stderr tleMarker then
          { st2 with overall_status := .timeLimitExceeded
                     error_message := some tleMarker
                     errHist := st2.errHist ++ [tleMarker] }
        else
          let m := if r.stderr.isEmpty then msgRuntimeExit r.exit_code
                   else r.stderr
          { st2 with overall_status := .runtimeError
                     error_message := some m
                     errHist := st2.errHist ++ [m] }
      else
        let pass := compare_output tc.expected_output r.stdout
        let st3 : Agg :=
          if pass then { st2 with passed_tests := st2.passed_tests + 1 }
          else if st2.overall_status = .accepted then
            { st2 with overall_status := .wrongAnswer
                       error_message := some msgWrongAnswer
                       errHist := st2.errHist ++ [msgWrongAnswer] }
          else st2
        let log : CreateExecutionLogRequest :=
          { language := language_id
            execution_time := some r.execution_time
            memory_used := some r.memory_used
            exit_code := some r.exit_code
            stdout := some r.stdout
            stderr := if r.stderr.isEmpty then none else some r.stderr
            status := if pass then .accepted else .wrongAnswer
            error_message := if pass then none else some (msgTestFailed i) }
        let st4 : Agg := { st3 with
          logs := st3.logs ++ [log]
          zeroExitAttempts := st3.zeroExitAttempts + 1 }
        if pass = false ∧ st4.overall_status = .wrongAnswer then st4
        else runLoop cfg language_id beh rest (i + 1) st4

/-- Environment of one judging run: the submission fields the engine reads,
the answers of the language/test-case/config stores, and the process-layer
behaviour oracle for each attempt index. -/
structure JudgeEnv where
  language_id : Str
  langExists : Bool
  test_cases : List TestCase
  config : Option LanguageConfig
  behavior : Nat → AttemptBehavior

/-- Observable outcome of one judging run: the execution-log rows created (in
creation order), the final status write, and the instrumentation counters. -/
structure Trace where
  logs : List CreateExecutionLogRequest
  finalUpdate : Option StatusUpdate
  preflights : Nat
  runAttempts : Nat
  zeroExitAttempts : Nat
  compileRuns : Nat
  freshWorkspaces : Nat
  times : List Int
  mems : List Int
  errHist : List Str
  okResult : Bool

/-- The log row written for a pre-flight failure (judge.rs, lines 199-210 and
236-247): no measurements, stderr and error_message both the failure message,
per-row status RuntimeError. -/
def preflightLog (lang msg : Str) : CreateExecutionLogRequest :=
  { language := lang, execution_time := none, memory_used := none
    exit_code := none, stdout := none, stderr := some msg
    status := .runtimeError, error_message := some msg }

/-- Model of `JudgeService::execute_submission_internal` (judge.rs, lines
173-407): validate the language, fetch the test cases, resolve the config,
run the loop and write the final status.  `okResult` is false when the
function propagates an error (config lookup returning none) instead of
completing. -/
def execute_submission_internal (env : JudgeEnv) : Trace :=
  if env.langExists = false then
    let msg := msgUnsupported env.language_id
    { logs := [preflightLog env.language_id msg]
      finalUpdate := some ⟨.runtimeError, none, none, some msg⟩
      preflights := 1, runAttempts := 0, zeroExitAttempts := 0
      compileRuns := 0, freshWorkspaces := 0, times := [], mems := []
      errHist := [msg], okResult := true }
  else if env.test_cases.isEmpty then
    let msg := msgNoTestCases
    { logs := [preflightLog env.language_id msg]
      finalUpdate := some ⟨.runtimeError, none, none, some msg⟩
      preflights := 1, runAttempts := 0, zeroExitAttempts := 0
      compileRuns := 0, freshWorkspaces := 0, times := [], mems := []
      errHist := [msg], okResult := true }
  else
    match env.config with
    | none =>
      { logs := [], finalUpdate := none
        preflights := 0, runAttempts := 0, zeroExitAttempts := 0
        compileRuns := 0, freshWorkspaces := 0, times := [], mems := []
        errHist := [], okResult := false }
    | some cfg =>
      let fin := runLoop cfg env.language_id env.behavior env.test_cases 0 initAgg
      { logs := fin.logs
        finalUpdate := some
          ⟨fin.overall_status,
           if fin.max_execution_time > 0 then some fin.max_execution_time
           else none,
           if fin.max_memory_used > 0 then some fin.max_memory_used else none,
           fin.error_message⟩
        preflights := 0
        runAttempts := fin.runAttempts
        zeroExitAttempts := fin.zeroExitAttempts
        compileRuns := fin.compileRuns
        freshWorkspaces := fin.freshWorkspaces
        times := fin.times, mems := fin.mems, errHist := fin.errHist
        okResult := true }

/-! ### Attempt-outcome predicates -/

/-- The attempt's compile step succeeds, the child completes with exit code
zero, and its stdout matches the expected output. -/
def AttemptPasses (b : AttemptBehavior) (tc : TestCase) : Prop :=
  b.compile = CompileOutcome.ok ∧
  ∃ out err t, b.run = ProcOutcome.completed out err t 0 ∧
    compare_output tc.expected_output out = true

/-- The attempt's compile step succeeds, the child completes with exit code
zero, and its stdout does not match the expected output. -/
def AttemptMismatch (b : AttemptBehavior) (tc : TestCase) : Prop :=
  b.compile = CompileOutcome.ok ∧
  ∃ out err t, b.run = ProcOutcome.completed out err t 0 ∧
    compare_output tc.expected_output out = false

/-- The attempt's compile step succeeds and the wall-clock deadline expires. -/
def AttemptTimeout (b : AttemptBehavior) : Prop :=
  b.compile = CompileOutcome.ok ∧ b.run = ProcOutcome.timeout

/-! ### Concrete fixtures

The two language descriptors are the `python` and `c` rows of the language
table in the `From<Language> for LanguageConfig` impl (models/judge.rs). -/

/-- The descriptor the source builds for `python`: interpreted, no compile
command, 5000 ms time limit. -/
def pyCfg : LanguageConfig :=
  { name := "python".toList, display_name := "Python".toList
    file_extension := ".py".toList, compile_command := none
    execute_command := "python3 solution.py".toList
    time_limit := 5000, memory_limit := 262144 }

/-- The descriptor the source builds for `c`: compiled via gcc, 3000 ms time
limit. -/
def cCfg : LanguageConfig :=
  { name := "c".toList, display_name := "C".toList
    file_extension := ".c".toList
    compile_command := some "gcc -o solution solution.c".toList
    execute_command := "./solution".toList
    time_limit := 3000, memory_limit := 262144 }

/-- An echo-style test case: input 42, expected output 42. -/
def tcEcho : TestCase :=
  { input_data := "42".toList, expected_output := "42".toList }

/-- A second test case: input 6, expected output 6. -/
def tcSix : TestCase :=
  { input_data := "6".toList, expected_output := "6".toList }

/-- An attempt whose compile step succeeds and whose child prints `out`,
exits 0 after 10 ms with empty stderr. -/
def passBeh (out : Str) : AttemptBehavior :=
  { compile := .ok, run := .completed out [] 10 0 }

/-- An attempt whose compile step succeeds and whose child outlives the
deadline. -/
def timeoutBeh : AttemptBehavior := { compile := .ok, run := .timeout }

/-- A run of a supported interpreted language over one test case whose only
attempt times out. -/
def envC1 : JudgeEnv :=
  { language_id := "python".toList, langExists := true
    test_cases := [tcEcho], config := some pyCfg
    behavior := fun _ => timeoutBeh }

/-- A run of the compiled language `c` over two test cases, both of whose
attempts print the expected output. -/
def envC2 : JudgeEnv :=
  { language_id := "c".toList, langExists := true
    test_cases := [tcEcho, tcSix], config := some cCfg
    behavior := fun i => passBeh (if i = 0 then "42".toList else "6".toList) }

/-- A run over three test cases: the first attempt passes, the second
completes with exit 0 but mismatching output, the third would pass. -/
def envC3 : JudgeEnv :=
  { language_id := "python".toList, langExists := true
    test_cases := [tcEcho, tcSix, tcSix], config := some pyCfg
    behavior := fun i => passBeh (if i = 0 then "42".toList else "7".toList) }

/-- A run whose language does not exist in the language store. -/
def envC5a : JudgeEnv :=
  { language_id := "cobol".toList, langExists := false
    test_cases := [tcEcho], config := none
    behavior := fun _ => timeoutBeh }

/-- A run of a supported language over a problem with zero test cases. -/
def envC5b : JudgeEnv :=
  { language_id := "python".toList, langExists := true
    test_cases := [], config := some pyCfg
    behavior := fun _ => timeoutBeh }

/-! ### Lemmas about the output normalization -/

/-- Removing carriage returns commutes with dropping a whitespace run, because
every carriage return is whitespace. -/
lemma dropWhile_filter_of_ws (l : Str) :
    ((l.filter fun c => !(c == '\r')).dropWhile isRustWhitespace)
      = ((l.dropWhile isRustWhitespace).filter fun c => !(c == '\r')) := by
  induction l with
  | nil => rfl
  | cons c l ih =>
    by_cases hc : c = '\r'
    · subst hc
      simpa [List.filter_cons, List.dropWhile_cons,
        (by decide : isRustWhitespace '\r' = true)] using ih
    · by_cases hw : isRustWhitespace c = true
      · simpa [List.filter_cons, List.dropWhile_cons, hc, hw] using ih
      · simp [List.filter_cons, List.dropWhile_cons, hc, hw]

/-- Removing carriage returns commutes with trimming at the start. -/
lemma removeCR_trimStart (s : Str) :
    removeCR (trimStart s) = trimStart (removeCR s) := by
  simp only [removeCR, trimStart]
  exact (dropWhile_filter_of_ws s).symm

/-- Removing carriage returns commutes with trimming at the end. -/
lemma removeCR_trimEnd (s : Str) :
    removeCR (trimEnd s) = trimEnd (removeCR s) := by
  simp only [removeCR, trimEnd]
  rw [← List.filter_reverse, dropWhile_filter_of_ws, ← List.filter_reverse]

/-- Removing carriage returns commutes with trimming, so the two readings of
"trim and remove carriage returns" agree. -/
lemma removeCR_trim (s : Str) : removeCR (trim s) = trim (removeCR s) := by
  simp [trim, removeCR_trimEnd, removeCR_trimStart]

/-! ### Evaluation lemmas for the run stage -/

/-- A successful compile step yields no compile error for any descriptor. -/
lemma compile_code_ok (cfg : LanguageConfig) :
    compile_code cfg CompileOutcome.ok = .ok none := by
  unfold compile_code
  cases cfg.compile_command <;> rfl

/-- A compile-step system error propagates out of the run stage. -/
lemma execute_compile_err (cfg : LanguageConfig) (b : AttemptBehavior)
    (tl : Int) (e : Str) (hco : compile_code cfg b.compile = .error e) :
    execute_with_timeout cfg b tl = .error e := by
  unfold execute_with_timeout
  rw [hco]

/-- A failing compile command short-circuits the run stage with empty stdout,
the compiler's stderr, zero time/memory and exit code 1. -/
lemma execute_compile_fail (cfg : LanguageConfig) (b : AttemptBehavior)
    (tl : Int) (msg : Str) (hco : compile_code cfg b.compile = .ok (some msg)) :
    execute_with_timeout cfg b tl = .ok ⟨[], msg, 0, 0, 1⟩ := by
  unfold execute_with_timeout
  rw [hco]

/-- Evaluation of the run stage on a normally completing child process. -/
lemma execute_ok_completed (cfg : LanguageConfig) (b : AttemptBehavior)
    (tl : Int) (out err : Str) (t code : Int)
    (hco : compile_code cfg b.compile = .ok none)
    (hr : b.run = ProcOutcome.completed out err t code) :
    execute_with_timeout cfg b tl = .ok ⟨out, err, t, 1024, code⟩ := by
  unfold execute_with_timeout
  rw [hco, hr]

/-- Evaluation of the run stage on deadline expiry: exactly the synthetic
timeout result. -/
lemma execute_ok_timeout (cfg : LanguageConfig) (b : AttemptBehavior)
    (tl : Int) (hco : compile_code cfg b.compile = .ok none)
    (hr : b.run = ProcOutcome.timeout) :
    execute_with_timeout cfg b tl = .ok ⟨[], tleMarker, tl, 0, 124⟩ := by
  unfold execute_with_timeout
  rw [hco, hr]

/-- A spawn/IO system error of the child propagates out of the run stage. -/
lemma execute_spawn_err (cfg : LanguageConfig) (b : AttemptBehavior)
    (tl : Int) (e : Str) (hco : compile_code cfg b.compile = .ok none)
    (hr : b.run = ProcOutcome.spawnError e) :
    execute_with_timeout cfg b tl = .error e := by
  unfold execute_with_timeout
  rw [hco, hr]

/-! ### Single-iteration lemmas for the main loop -/

/-- One loop iteration on a passing attempt: a log row with per-row verdict
Accepted is appended and the loop continues with the next test case. -/
lemma runLoop_cons_pass (cfg : LanguageConfig) (lang : Str)
    (beh : Nat → AttemptBehavior) (tc : TestCase) (rest : List TestCase)
    (i : Nat) (st : Agg) (out err : Str) (t : Int)
    (hco : compile_code cfg (beh i).compile = .ok none)
    (hr : (beh i).run = ProcOutcome.completed out err t 0)
    (hcmp : compare_output tc.expected_output out = true) :
    runLoop cfg lang beh (tc :: rest) i st =
      runLoop cfg lang beh rest (i + 1)
        { st with
          runAttempts := st.runAttempts + 1
          freshWorkspaces := st.freshWorkspaces + 1
          compileRuns := st.compileRuns + compileRan cfg (beh i).compile
          max_execution_time := max st.max_execution_time t
          max_memory_used := max st.max_memory_used 1024
          times := st.times ++ [t]
          mems := st.mems ++ [1024]
          passed_tests := st.passed_tests + 1
          logs := st.logs ++
            [{ language := lang
               execution_time := some t
               memory_used := some 1024
               exit_code := some 0
               stdout := some out
               stderr := if err.isEmpty then none else some err
               status := .accepted
               error_message := none }]
          zeroExitAttempts := st.zeroExitAttempts + 1 } := by
  rw [runLoop, execute_ok_completed cfg (beh i) cfg.time_limit out err t 0 hco hr]
  simp [hcmp]

/-- One loop iteration on a zero-exit attempt with mismatching output, from a
still-Accepted aggregator state: a log row is appended, the verdict becomes
WrongAnswer and the loop stops. -/
lemma runLoop_cons_mismatch (cfg : LanguageConfig) (lang : Str)
    (beh : Nat → AttemptBehavior) (tc : TestCase) (rest : List TestCase)
    (i : Nat) (st : Agg) (out err : Str) (t : Int)
    (hst : st.overall_status = SubmissionStatus.accepted)
    (hco : compile_code cfg (beh i).compile = .ok none)
    (hr : (beh i).run = ProcOutcome.completed out err t 0)
    (hcmp : compare_output tc.expected_output out = false) :
    runLoop cfg lang beh (tc :: rest) i st =
      { st with
        runAttempts := st.runAttempts + 1
        freshWorkspaces := st.freshWorkspaces + 1
        compileRuns := st.compileRuns + compileRan cfg (beh i).compile
        max_execution_time := max st.max_execution_time t
        max_memory_used := max st.max_memory_used 1024
        times := st.times ++ [t]
        mems := st.mems ++ [1024]
        overall_status := SubmissionStatus.wrongAnswer
        error_message := some msgWrongAnswer
        errHist := st.errHist ++ [msgWrongAnswer]
        logs := st.logs ++
          [{ language := lang
             execution_time := some t
             memory_used := some 1024
             exit_code := some 0
             stdout := some out
             stderr := if err.isEmpty then none else some err
             status := .wrongAnswer
             error_message := some (msgTestFailed i) }]
        zeroExitAttempts := st.zeroExitAttempts + 1 } := by
  rw [runLoop, execute_ok_completed cfg (beh i) cfg.time_limit out err t 0 hco hr]
  simp [hcmp, hst]

/-- One loop iteration on an attempt whose deadline expires: the synthetic
timeout result carries exit code 124 and the timeout marker, so the verdict
becomes TimeLimitExceeded and the loop stops, with no log row appended. -/
lemma runLoop_cons_timeout (cfg : LanguageConfig) (lang : Str)
    (beh : Nat → AttemptBehavior) (tc : TestCase) (rest : List TestCase)
    (i : Nat) (st : Agg)
    (hco : compile_code cfg (beh i).compile = .ok none)
    (hr : (beh i).run = ProcOutcome.timeout) :
    runLoop cfg lang beh (tc :: rest) i st =
      { st with
        runAttempts := st.runAttempts + 1
        freshWorkspaces := st.freshWorkspaces + 1
        compileRuns := st.compileRuns + compileRan cfg (beh i).compile
        max_execution_time := max st.max_execution_time cfg.time_limit
        max_memory_used := max st.max_memory_used 0
        times := st.times ++ [cfg.time_limit]
        mems := st.mems ++ [0]
        overall_status := SubmissionStatus.timeLimitExceeded
        error_message := some tleMarker
        errHist := st.errHist ++ [tleMarker] } := by
  rw [runLoop, execute_ok_timeout cfg (beh i) cfg.time_limit hco hr]
  simp [(by decide : containsStr tleMarker tleMarker = true)]

/-- Running the loop over a block of passing test cases reaches the tail with
the verdict still untouched, one log row and one attempt per block element. -/
lemma runLoop_passes_block (cfg : LanguageConfig) (lang : Str)
    (beh : Nat → AttemptBehavior) :
    ∀ (pre rest : List TestCase) (i : Nat) (st : Agg),
      (∀ j (hj : j < pre.length), AttemptPasses (beh (i + j)) (pre.get ⟨j, hj⟩)) →
      ∃ st2 : Agg,
        runLoop cfg lang beh (pre ++ rest) i st
          = runLoop cfg lang beh rest (i + pre.length) st2 ∧
        st2.overall_status = st.overall_status ∧
        st2.logs.length = st.logs.length + pre.length ∧
        st2.runAttempts = st.runAttempts + pre.length ∧
        st2.zeroExitAttempts = st.zeroExitAttempts + pre.length ∧
        st2.error_message = st.error_message ∧
        st2.errHist = st.errHist := by
  intro pre
  induction pre with
  | nil =>
    intro rest i st _
    exact ⟨st, by simp, rfl, by simp, by simp, by simp, rfl, rfl⟩
  | cons tc pre ih =>
    intro rest i st hpass
    have h0 : AttemptPasses (beh i) tc := hpass 0 (by simp)
    obtain ⟨hc, out, err, t, hr, hcmp⟩ := h0
    have hco : compile_code cfg (beh i).compile = .ok none := by
      rw [hc]; exact compile_code_ok cfg
    rw [List.cons_append,
      runLoop_cons_pass cfg lang beh tc (pre ++ rest) i st out err t hco hr hcmp]
    obtain ⟨st2, heq, hstat, hlogs, hatt, hzero, herr, hhist⟩ :=
      ih rest (i + 1) _ (fun j hj => by
        have h := hpass (j + 1) (by simpa using Nat.succ_lt_succ hj)
        simpa [Nat.add_comm, Nat.add_left_comm, Nat.add_assoc] using h)
    refine ⟨st2, ?_, ?_, ?_, ?_, ?_, ?_, ?_⟩
    · rw [heq]; congr 1; simp; omega
    · simpa using hstat
    · simp at hlogs ⊢; omega
    · simp at hatt ⊢; omega
    · simp at hzero ⊢; omega
    · simpa using herr
    · simpa using hhist

/-- Counting invariant of the loop, from any still-Accepted state: the number
of log rows grows exactly with the number of zero-exit attempts, and the
number of fresh workspaces exactly with the number of execution attempts. -/
lemma runLoop_counts (cfg : LanguageConfig) (lang : Str)
    (beh : Nat → AttemptBehavior) :
    ∀ (tcs : List TestCase) (i : Nat) (st : Agg),
      st.overall_status = SubmissionStatus.accepted →
      ((runLoop cfg lang beh tcs i st).logs.length + st.zeroExitAttempts
          = st.logs.length + (runLoop cfg lang beh tcs i st).zeroExitAttempts) ∧
      ((runLoop cfg lang beh tcs i st).freshWorkspaces + st.runAttempts
          = st.freshWorkspaces + (runLoop cfg lang beh tcs i st).runAttempts) := by
  intro tcs
  induction tcs with
  | nil => intro i st _; constructor <;> simp [runLoop]
  | cons tc rest ih =>
    intro i st hstatus
    cases hco : compile_code cfg (beh i).compile with
    | error e =>
      rw [runLoop, execute_compile_err cfg (beh i) cfg.time_limit e hco]
      constructor <;> simp <;> omega
    | ok copt =>
      cases copt with
      | some msg =>
        rw [runLoop, execute_compile_fail cfg (beh i) cfg.time_limit msg hco]
        by_cases htle : containsStr msg tleMarker = true
        · constructor <;> simp [htle] <;> omega
        · constructor <;> simp [htle] <;> omega
      | none =>
        cases hr : (beh i).run with
        | timeout =>
          rw [runLoop, execute_ok_timeout cfg (beh i) cfg.time_limit hco hr]
          constructor <;>
            simp [(by decide : containsStr tleMarker tleMarker = true)] <;> omega
        | spawnError e =>
          rw [runLoop, execute_spawn_err cfg (beh i) cfg.time_limit e hco hr]
          constructor <;> simp <;> omega
        | completed out err t code =>
          by_cases hcode : code = 0
          · subst hcode
            by_cases hcmp : compare_output tc.expected_output out = true
            · rw [runLoop_cons_pass cfg lang beh tc rest i st out err t hco hr hcmp]
              obtain ⟨H1, H2⟩ := ih (i + 1)
                { st with
                  runAttempts := st.runAttempts + 1
                  freshWorkspaces := st.freshWorkspaces + 1
                  compileRuns := st.compileRuns + compileRan cfg (beh i).compile
                  max_execution_time := max st.max_execution_time t
                  max_memory_used := max st.max_memory_used 1024
                  times := st.times ++ [t]
                  mems := st.mems ++ [1024]
                  passed_tests := st.passed_tests + 1
                  logs := st.logs ++
                    [{ language := lang
                       execution_time := some t
                       memory_used := some 1024
                       exit_code := some 0
                       stdout := some out
                       stderr := if err.isEmpty then none else some err
                       status := .accepted
                       error_message := none }]
                  zeroExitAttempts := st.zeroExitAttempts + 1 }
                (by simpa using hstatus)
              constructor
              · simp at H1 ⊢; omega
              · simp at H2 ⊢; omega
            · rw [runLoop_cons_mismatch cfg lang beh tc rest i st out err t
                hstatus hco hr (by simpa using hcmp)]
              constructor <;> simp <;> omega
          · rw [runLoop,
              execute_ok_completed cfg (beh i) cfg.time_limit out err t code hco hr]
            by_cases htle : containsStr err tleMarker = true
            · constructor <;> simp [hcode, htle] <;> omega
            · constructor <;> simp [hcode, htle] <;> omega

/-- Folding max over a list extended by one element. -/
lemma foldl_max_concat (l : List Int) (a b : Int) :
    (l ++ [b]).foldl max a = max (l.foldl max a) b := by
  rw [List.foldl_append]
  rfl

/-- Measurement invariant of the loop, from any still-Accepted state: the
running maxima equal the maximum (with floor 0) over the recorded per-attempt
measurements — which include the measurements of the final failing attempt —
and the error message is the most recently recorded one. -/
lemma runLoop_measures (cfg : LanguageConfig) (lang : Str)
    (beh : Nat → AttemptBehavior) :
    ∀ (tcs : List TestCase) (i : Nat) (st : Agg),
      st.overall_status = SubmissionStatus.accepted →
      st.max_execution_time = st.times.foldl max 0 →
      st.max_memory_used = st.mems.foldl max 0 →
      st.error_message = st.errHist.getLast? →
      ((runLoop cfg lang beh tcs i st).max_execution_time
          = (runLoop cfg lang beh tcs i st).times.foldl max 0) ∧
      ((runLoop cfg lang beh tcs i st).max_memory_used
          = (runLoop cfg lang beh tcs i st).mems.foldl max 0) ∧
      ((runLoop cfg lang beh tcs i st).error_message
          = (runLoop cfg lang beh tcs i st).errHist.getLast?) := by
  intro tcs
  induction tcs with
  | nil =>
    intro i st _ h1 h2 h3
    refine ⟨?_, ?_, ?_⟩ <;> simp [runLoop, h1, h2, h3]
  | cons tc rest ih =>
    intro i st hstatus h1 h2 h3
    cases hco : compile_code cfg (beh i).compile with
    | error e =>
      rw [runLoop, execute_compile_err cfg (beh i) cfg.time_limit e hco]
      refine ⟨?_, ?_, ?_⟩ <;> simp [h1, h2, List.getLast?_concat]
    | ok copt =>
      cases copt with
      | some msg =>
        rw [runLoop, execute_compile_fail cfg (beh i) cfg.time_limit msg hco]
        by_cases htle : containsStr msg tleMarker = true
        · refine ⟨?_, ?_, ?_⟩ <;>
            simp [htle, h1, h2, foldl_max_concat, List.getLast?_concat]
        · refine ⟨?_, ?_, ?_⟩ <;>
            simp [htle, h1, h2, foldl_max_concat, List.getLast?_concat]
      | none =>
        cases hr : (beh i).run with
        | timeout =>
          rw [runLoop, execute_ok_timeout cfg (beh i) cfg.time_limit hco hr]
          refine ⟨?_, ?_, ?_⟩ <;>
            simp [(by decide : containsStr tleMarker tleMarker = true),
              h1, h2, foldl_max_concat, List.getLast?_concat]
        | spawnError e =>
          rw [runLoop, execute_spawn_err cfg (beh i) cfg.time_limit e hco hr]
          refine ⟨?_, ?_, ?_⟩ <;> simp [h1, h2, List.getLast?_concat]
        | completed out err t code =>
          by_cases hcode : code = 0
          · subst hcode
            by_cases hcmp : compare_output tc.expected_output out = true
            · rw [runLoop_cons_pass cfg lang beh tc rest i st out err t hco hr hcmp]
              exact ih (i + 1)
                { st with
                  runAttempts := st.runAttempts + 1
                  freshWorkspaces := st.freshWorkspaces + 1
                  compileRuns := st.compileRuns + compileRan cfg (beh i).compile
                  max_execution_time := max st.max_execution_time t
                  max_memory_used := max st.max_memory_used 1024
                  times := st.times ++ [t]
                  mems := st.mems ++ [1024]
                  passed_tests := st.passed_tests + 1
                  logs := st.logs ++
                    [{ language := lang
                       execution_time := some t
                       memory_used := some 1024
                       exit_code := some 0
                       stdout := some out
                       stderr := if err.isEmpty then none else some err
                       status := .accepted
                       error_message := none }]
                  zeroExitAttempts := st.zeroExitAttempts + 1 }
                (by simpa using hstatus)
                (by simp [foldl_max_concat, h1])
                (by simp [foldl_max_concat, h2])
                (by simpa using h3)
            · rw [runLoop_cons_mismatch cfg lang beh tc rest i st out err t
                hstatus hco hr (by simpa using hcmp)]
              refine ⟨?_, ?_, ?_⟩ <;>
                simp [h1, h2, foldl_max_concat, List.getLast?_concat]
          · rw [runLoop,
              execute_ok_completed cfg (beh i) cfg.time_limit out err t code hco hr]
            by_cases htle : containsStr err tleMarker = true
            · refine ⟨?_, ?_, ?_⟩ <;>
                simp [hcode, htle, h1, h2, foldl_max_concat, List.getLast?_concat]
            · refine ⟨?_, ?_, ?_⟩ <;>
                simp [hcode, htle, h1, h2, foldl_max_concat, List.getLast?_concat]

/-- Compile-count invariant of the loop when every attempt's compile command
runs to a successful completion and the descriptor has a compile command: the
compile command is executed once per execution attempt. -/
lemma runLoop_compile_count (cfg : LanguageConfig) (lang : Str)
    (beh : Nat → AttemptBehavior) (cmd : Str)
    (hsome : cfg.compile_command = some cmd)
    (hok : ∀ j, (beh j).compile = CompileOutcome.ok) :
    ∀ (tcs : List TestCase) (i : Nat) (st : Agg),
      st.overall_status = SubmissionStatus.accepted →
      (runLoop cfg lang beh tcs i st).compileRuns + st.runAttempts
        = st.compileRuns + (runLoop cfg lang beh tcs i st).runAttempts := by
  intro tcs
  induction tcs with
  | nil => intro i st _; simp [runLoop]
  | cons tc rest ih =>
    intro i st hstatus
    have hco : compile_code cfg (beh i).compile = .ok none := by
      rw [hok i]; exact compile_code_ok cfg
    have hran : compileRan cfg (beh i).compile = 1 := by
      rw [hok i]; unfold compileRan; rw [hsome]
    cases hr : (beh i).run with
    | timeout =>
      rw [runLoop, execute_ok_timeout cfg (beh i) cfg.time_limit hco hr]
      simp [(by decide : containsStr tleMarker tleMarker = true), hran]
      omega
    | spawnError e =>
      rw [runLoop, execute_spawn_err cfg (beh i) cfg.time_limit e hco hr]
      simp [hran]
      omega
    | completed out err t code =>
      by_cases hcode : code = 0
      · subst hcode
        by_cases hcmp : compare_output tc.expected_output out = true
        · rw [runLoop_cons_pass cfg lang beh tc rest i st out err t hco hr hcmp]
          have H := ih (i + 1)
            { st with
              runAttempts := st.runAttempts + 1
              freshWorkspaces := st.freshWorkspaces + 1
              compileRuns := st.compileRuns + compileRan cfg (beh i).compile
              max_execution_time := max st.max_execution_time t
              max_memory_used := max st.max_memory_used 1024
              times := st.times ++ [t]
              mems := st.mems ++ [1024]
              passed_tests := st.passed_tests + 1
              logs := st.logs ++
                [{ language := lang
                   execution_time := some t
                   memory_used := some 1024
                   exit_code := some 0
                   stdout := some out
                   stderr := if err.isEmpty then none else some err
                   status := .accepted
                   error_message := none }]
              zeroExitAttempts := st.zeroExitAttempts + 1 }
            (by simpa using hstatus)
          simp [hran] at H ⊢
          omega
        · rw [runLoop_cons_mismatch cfg lang beh tc rest i st out err t
            hstatus hco hr (by simpa using hcmp)]
          simp [hran]
          omega
      · rw [runLoop,
          execute_ok_completed cfg (beh i) cfg.time_limit out err t code hco hr]
        by_cases htle : containsStr err tleMarker = true
        · simp [hcode, htle, hran]; omega
        · simp [hcode, htle, hran]; omega

/-! ### Claim theorems -/

/-- C6: the comparator returns true exactly when the two strings are equal
after trimming leading/trailing whitespace and removing every carriage
return — in either order of the two normalization steps — and the three
documented examples evaluate as specified. -/
theorem C6_comparator_spec :
    (∀ e a : Str, compare_output e a = true ↔
        removeCR (trim e) = removeCR (trim a)) ∧
    (∀ e a : Str, compare_output e a = true ↔
        trim (removeCR e) = trim (removeCR a)) ∧
    compare_output "5\n".toList "5\r\n".toList = true ∧
    compare_output "5 ".toList "5".toList = true ∧
    compare_output "5".toList "6".toList = false := by
  refine ⟨fun e a => ?_, fun e a => ?_, by decide, by decide, by decide⟩
  · simp [compare_output, normalizeOutput]
  · simp [compare_output, normalizeOutput, removeCR_trim]

/-- C10: the comparator is symmetric and reflexive. -/
theorem C10_comparator_symm_refl :
    (∀ a b : Str, compare_output a b = compare_output b a) ∧
    (∀ a : Str, compare_output a a = true) := by
  constructor
  · intro a b
    by_cases h : normalizeOutput a = normalizeOutput b
    · simp [compare_output, h]
    · simp [compare_output, h, Ne.symm h]
  · intro a
    simp [compare_output]

/-- C9: the creation-time placeholder status of a submission is WrongAnswer,
and the verdict enum has only the four terminal values — so an unjudged
submission is indistinguishable by its status field from one judged
WrongAnswer. -/
theorem C9_creation_placeholder :
    submissionCreationStatus = SubmissionStatus.wrongAnswer ∧
    ∀ s : SubmissionStatus,
      s = SubmissionStatus.accepted ∨ s = SubmissionStatus.wrongAnswer ∨
        s = SubmissionStatus.timeLimitExceeded ∨
        s = SubmissionStatus.runtimeError := by
  refine ⟨rfl, fun s => ?_⟩
  cases s
  · exact Or.inl rfl
  · exact Or.inr (Or.inl rfl)
  · exact Or.inr (Or.inr (Or.inl rfl))
  · exact Or.inr (Or.inr (Or.inr rfl))

/-- C5: an unsupported language, and likewise a problem with zero test
cases, produces exactly one ExecutionLog row (with the respective message),
writes final verdict RuntimeError with that message, and runs no test case. -/
theorem C5_preflight_failures :
    (∀ env : JudgeEnv, env.langExists = false →
      (execute_submission_internal env).logs
          = [preflightLog env.language_id (msgUnsupported env.language_id)] ∧
      (execute_submission_internal env).finalUpdate
          = some ⟨SubmissionStatus.runtimeError, none, none,
              some (msgUnsupported env.language_id)⟩ ∧
      (execute_submission_internal env).runAttempts = 0) ∧
    (∀ env : JudgeEnv, env.langExists = true → env.test_cases = [] →
      (execute_submission_internal env).logs
          = [preflightLog env.language_id msgNoTestCases] ∧
      (execute_submission_internal env).finalUpdate
          = some ⟨SubmissionStatus.runtimeError, none, none,
              some msgNoTestCases⟩ ∧
      (execute_submission_internal env).runAttempts = 0) := by
  constructor
  · intro env h
    refine ⟨?_, ?_, ?_⟩ <;> simp [execute_submission_internal, h]
  · intro env h1 h2
    refine ⟨?_, ?_, ?_⟩ <;> simp [execute_submission_internal, h1, h2]

/-- Closed instance of the pre-flight theorem at the two concrete runs. -/
theorem C5_preflight_failures_witness :
    (execute_submission_internal envC5a).logs
        = [preflightLog "cobol".toList (msgUnsupported "cobol".toList)] ∧
    (execute_submission_internal envC5a).runAttempts = 0 ∧
    (execute_submission_internal envC5b).finalUpdate
        = some ⟨SubmissionStatus.runtimeError, none, none,
            some msgNoTestCases⟩ :=
  ⟨(C5_preflight_failures.1 envC5a rfl).1,
   (C5_preflight_failures.1 envC5a rfl).2.2,
   (C5_preflight_failures.2 envC5b rfl rfl).2.1⟩

/-- C1 (amended): the number of ExecutionLog rows of a run equals the number
of attempts that completed with exit code zero plus the number of pre-flight
failures; attempts ending in timeout, non-zero exit or a process-layer
system error write no log row. -/
theorem C1_log_accounting (env : JudgeEnv) :
    (execute_submission_internal env).logs.length
      = (execute_submission_internal env).zeroExitAttempts
        + (execute_submission_internal env).preflights := by
  unfold execute_submission_internal
  by_cases h1 : env.langExists = false
  · simp [h1]
  · by_cases h2 : env.test_cases.isEmpty = true
    · simp [h1, h2]
    · cases hcfg : env.config with
      | none => simp [h1, h2, hcfg]
      | some cfg =>
        have H := (runLoop_counts cfg env.language_id env.behavior
          env.test_cases 0 initAgg rfl).1
        rw [show initAgg.logs.length = 0 from rfl,
          show initAgg.zeroExitAttempts = 0 from rfl] at H
        simp [h1, h2, hcfg]
        omega

/-- Counterexample to C1 as stated: a run with one attempt that times out
creates zero ExecutionLog rows, not one per attempt. -/
theorem C1_counterexample :
    ¬ ((execute_submission_internal envC1).logs.length
        = (execute_submission_internal envC1).runAttempts
          + (execute_submission_internal envC1).preflights) := by
  decide

/-- C2 (amended): the compile command runs once per test-case attempt — not
once per submission — and every attempt gets a fresh workspace. -/
theorem C2_compile_per_attempt (env : JudgeEnv) (cfg : LanguageConfig)
    (cmd : Str) (hcfg : env.config = some cfg)
    (hcmd : cfg.compile_command = some cmd)
    (hok : ∀ j, (env.behavior j).compile = CompileOutcome.ok) :
    (execute_submission_internal env).compileRuns
        = (execute_submission_internal env).runAttempts ∧
    (execute_submission_internal env).freshWorkspaces
        = (execute_submission_internal env).runAttempts := by
  unfold execute_submission_internal
  by_cases h1 : env.langExists = false
  · simp [h1]
  · by_cases h2 : env.test_cases.isEmpty = true
    · simp [h1, h2]
    · have H1 := runLoop_compile_count cfg env.language_id env.behavior cmd
        hcmd hok env.test_cases 0 initAgg rfl
      have H2 := (runLoop_counts cfg env.language_id env.behavior
        env.test_cases 0 initAgg rfl).2
      rw [show initAgg.compileRuns = 0 from rfl,
        show initAgg.runAttempts = 0 from rfl] at H1
      rw [show initAgg.freshWorkspaces = 0 from rfl,
        show initAgg.runAttempts = 0 from rfl] at H2
      simp [h1, h2, hcfg]
      omega

/-- Closed instance of the amended compile-count theorem at the two-test-case
compiled run. -/
theorem C2_compile_per_attempt_witness :
    (execute_submission_internal envC2).compileRuns
        = (execute_submission_internal envC2).runAttempts ∧
    (execute_submission_internal envC2).freshWorkspaces
        = (execute_submission_internal envC2).runAttempts :=
  C2_compile_per_attempt envC2 cCfg "gcc -o solution solution.c".toList
    rfl rfl (fun _ => rfl)

/-- Counterexample to C2 as stated: over two test cases of a compiled
language the compile command is executed twice, in two distinct fresh
workspaces — not at most once in one persistent workspace. -/
theorem C2_counterexample :
    (execute_submission_internal envC2).compileRuns = 2 ∧
    (execute_submission_internal envC2).freshWorkspaces = 2 ∧
    ¬ ((execute_submission_internal envC2).compileRuns ≤ 1) := by
  decide

/-- C3: when the first K test cases pass and test K+1 completes with exit
code zero but mismatching output, exactly K+1 ExecutionLog rows are created,
exactly K+1 test cases are executed, and the final verdict written is
WrongAnswer. -/
theorem C3_fail_fast (env : JudgeEnv) (cfg : LanguageConfig)
    (pre post : List TestCase) (tcK : TestCase)
    (h1 : env.langExists = true) (hcfg : env.config = some cfg)
    (hsplit : env.test_cases = pre ++ tcK :: post)
    (hpass : ∀ j (hj : j < pre.length),
      AttemptPasses (env.behavior j) (pre.get ⟨j, hj⟩))
    (hfail : AttemptMismatch (env.behavior pre.length) tcK) :
    (execute_submission_internal env).logs.length = pre.length + 1 ∧
    (execute_submission_internal env).runAttempts = pre.length + 1 ∧
    ∃ u, (execute_submission_internal env).finalUpdate = some u ∧
      u.status = SubmissionStatus.wrongAnswer := by
  obtain ⟨st2, heq, hstat, hlogs, hatt, hzero, herr, hhist⟩ :=
    runLoop_passes_block cfg env.language_id env.behavior pre (tcK :: post) 0
      initAgg (fun j hj => by simpa using hpass j hj)
  rw [Nat.zero_add] at heq
  obtain ⟨hc, out, err, t, hr, hcmp⟩ := hfail
  have hco : compile_code cfg (env.behavior pre.length).compile = .ok none := by
    rw [hc]; exact compile_code_ok cfg
  have hstop := runLoop_cons_mismatch cfg env.language_id env.behavior tcK post
    pre.length st2 out err t (by rw [hstat]; rfl) hco hr hcmp
  rw [show initAgg.logs.length = 0 from rfl] at hlogs
  rw [show initAgg.runAttempts = 0 from rfl] at hatt
  refine ⟨?_, ?_, ?_⟩
  · simp [execute_submission_internal, h1, hcfg, hsplit, heq, hstop]
    omega
  · simp [execute_submission_internal, h1, hcfg, hsplit, heq, hstop]
    omega
  · simp [execute_submission_internal, h1, hcfg, hsplit, heq, hstop]

/-- Closed instance of the fail-fast theorem: one pass, then an exit-zero
mismatch, with a third test case that is never executed. -/
theorem C3_fail_fast_witness :
    (execute_submission_internal envC3).logs.length = 2 ∧
    (execute_submission_internal envC3).runAttempts = 2 ∧
    ∃ u, (execute_submission_internal envC3).finalUpdate = some u ∧
      u.status = SubmissionStatus.wrongAnswer :=
  C3_fail_fast envC3 pyCfg [tcEcho] [tcSix] tcSix rfl rfl rfl
    (fun j hj => by
      have hj' : j < 1 := by simpa using hj
      have hj0 : j = 0 := by omega
      subst hj0
      exact show AttemptPasses (envC3.behavior 0) tcEcho from
        ⟨rfl, "42".toList, [], 10, rfl, by decide⟩)
    ⟨rfl, "7".toList, [], 10, rfl, by decide⟩

/-- C4: an attempt whose deadline expires reports exactly the synthetic
result (empty stdout, stderr the timeout marker, exit code 124, execution
time equal to the configured limit), after which the aggregator sets the
verdict TimeLimitExceeded and stops: only the K passing attempts and the
timed-out attempt are executed. -/
theorem C4_timeout_semantics (env : JudgeEnv) (cfg : LanguageConfig)
    (pre post : List TestCase) (tcK : TestCase)
    (h1 : env.langExists = true) (hcfg : env.config = some cfg)
    (hsplit : env.test_cases = pre ++ tcK :: post)
    (hpass : ∀ j (hj : j < pre.length),
      AttemptPasses (env.behavior j) (pre.get ⟨j, hj⟩))
    (htle : AttemptTimeout (env.behavior pre.length)) :
    execute_with_timeout cfg (env.behavior pre.length) cfg.time_limit
        = .ok ⟨[], tleMarker, cfg.time_limit, 0, 124⟩ ∧
    (execute_submission_internal env).runAttempts = pre.length + 1 ∧
    ∃ u, (execute_submission_internal env).finalUpdate = some u ∧
      u.status = SubmissionStatus.timeLimitExceeded ∧
      u.error_message = some tleMarker := by
  obtain ⟨hc, hr⟩ := htle
  have hco : compile_code cfg (env.behavior pre.length).compile = .ok none := by
    rw [hc]; exact compile_code_ok cfg
  obtain ⟨st2, heq, hstat, hlogs, hatt, hzero, herr, hhist⟩ :=
    runLoop_passes_block cfg env.language_id env.behavior pre (tcK :: post) 0
      initAgg (fun j hj => by simpa using hpass j hj)
  rw [Nat.zero_add] at heq
  have hstop := runLoop_cons_timeout cfg env.language_id env.behavior tcK post
    pre.length st2 hco hr
  rw [show initAgg.runAttempts = 0 from rfl] at hatt
  refine ⟨execute_ok_timeout cfg (env.behavior pre.length) cfg.time_limit hco hr,
    ?_, ?_⟩
  · simp [execute_submission_internal, h1, hcfg, hsplit, heq, hstop]
    omega
  · simp [execute_submission_internal, h1, hcfg, hsplit, heq, hstop]

/-- Closed instance of the timeout theorem at the single-test-case run whose
only attempt times out. -/
theorem C4_timeout_semantics_witness :
    execute_with_timeout pyCfg (envC1.behavior 0) pyCfg.time_limit
        = .ok ⟨[], tleMarker, pyCfg.time_limit, 0, 124⟩ ∧
    (execute_submission_internal envC1).runAttempts = 0 + 1 ∧
    ∃ u, (execute_submission_internal envC1).finalUpdate = some u ∧
      u.status = SubmissionStatus.timeLimitExceeded ∧
      u.error_message = some tleMarker :=
  C4_timeout_semantics envC1 pyCfg [] [] tcEcho rfl rfl rfl
    (fun j hj => absurd hj (Nat.not_lt_zero j)) ⟨rfl, rfl⟩

/-- C7: the final status write carries the loop's final verdict, the maxima
of the recorded execution times and memory figures over all completed
attempts regardless of per-attempt verdict (a maximum of zero written as
none), and the most recently recorded error message. -/
theorem C7_final_report (env : JudgeEnv) (cfg : LanguageConfig)
    (h1 : env.langExists = true) (hcfg : env.config = some cfg)
    (h2 : env.test_cases ≠ []) :
    ∃ u, (execute_submission_internal env).finalUpdate = some u ∧
      u.status = (runLoop cfg env.language_id env.behavior env.test_cases 0
          initAgg).overall_status ∧
      u.execution_time
          = (if 0 < (execute_submission_internal env).times.foldl max 0
             then some ((execute_submission_internal env).times.foldl max 0)
             else none) ∧
      u.memory_used
          = (if 0 < (execute_submission_internal env).mems.foldl max 0
             then some ((execute_submission_internal env).mems.foldl max 0)
             else none) ∧
      u.error_message = (execute_submission_internal env).errHist.getLast? := by
  have hne : env.test_cases.isEmpty = false := by
    cases h : env.test_cases with
    | nil => exact absurd h h2
    | cons a l => rfl
  obtain ⟨M1, M2, M3⟩ := runLoop_measures cfg env.language_id env.behavior
    env.test_cases 0 initAgg rfl rfl rfl rfl
  have htimes : (execute_submission_internal env).times
      = (runLoop cfg env.language_id env.behavior env.test_cases 0
          initAgg).times := by
    simp [execute_submission_internal, h1, hne, hcfg]
  have hmems : (execute_submission_internal env).mems
      = (runLoop cfg env.language_id env.behavior env.test_cases 0
          initAgg).mems := by
    simp [execute_submission_internal, h1, hne, hcfg]
  have herrh : (execute_submission_internal env).errHist
      = (runLoop cfg env.language_id env.behavior env.test_cases 0
          initAgg).errHist := by
    simp [execute_submission_internal, h1, hne, hcfg]
  refine ⟨⟨(runLoop cfg env.language_id env.behavior env.test_cases 0
        initAgg).overall_status,
      if (runLoop cfg env.language_id env.behavior env.test_cases 0
          initAgg).max_execution_time > 0
      then some ((runLoop cfg env.language_id env.behavior env.test_cases 0
          initAgg).max_execution_time) else none,
      if (runLoop cfg env.language_id env.behavior env.test_cases 0
          initAgg).max_memory_used > 0
      then some ((runLoop cfg env.language_id env.behavior env.test_cases 0
          initAgg).max_memory_used) else none,
      (runLoop cfg env.language_id env.behavior env.test_cases 0
        initAgg).error_message⟩, ?_, rfl, ?_, ?_, ?_⟩
  · simp [execute_submission_internal, h1, hne, hcfg]
  · rw [htimes, ← M1]
  · rw [hmems, ← M2]
  · rw [herrh, ← M3]

/-- Closed instance of the final-report theorem at the two-test-case run. -/
theorem C7_final_report_witness :
    ∃ u, (execute_submission_internal envC2).finalUpdate = some u ∧
      u.status = (runLoop cCfg envC2.language_id envC2.behavior
          envC2.test_cases 0 initAgg).overall_status ∧
      u.execution_time
          = (if 0 < (execute_submission_internal envC2).times.foldl max 0
             then some ((execute_submission_internal envC2).times.foldl max 0)
             else none) ∧
      u.memory_used
          = (if 0 < (execute_submission_internal envC2).mems.foldl max 0
             then some ((execute_submission_internal envC2).mems.foldl max 0)
             else none) ∧
      u.error_message = (execute_submission_internal envC2).errHist.getLast? :=
  C7_final_report envC2 cCfg rfl rfl (by decide)

end CrabCode
